import Mathlib

/-!
Verification of the extruder-force-jig serial controller and GUI logic.

The Python sources (`arduino_serial.py`, `main.py`) are shallowly embedded:
Python strings become `List Char`, Python floats become an exact `PyFloat`
variant (finite values as rationals, plus the infinities and nan — binary64
rounding is immaterial to every property below), fallible Python operations
return `Except PyExn`, and the stateful objects (`ArduinoController`, the
calibration window, the recording GUI) become explicit state records with
step functions.
-/

namespace ExtruderJig

/-! Python string primitives over `List Char`. -/

/-- The ASCII whitespace characters stripped by Python's `str.strip()` and
by `float()`: space, tab, newline, carriage return, vertical tab, form feed. -/
def isPySpace (c : Char) : Bool :=
  c = ' ' || c = '\t' || c = '\n' || c = '\r' || c.toNat = 11 || c.toNat = 12

def stripLeadingWs (l : List Char) : List Char :=
  l.dropWhile (fun c => isPySpace c)

def stripTrailingWs : List Char → List Char
  | [] => []
  | c :: cs =>
    match stripTrailingWs cs with
    | [] => if isPySpace c then [] else [c]
    | r :: rs => c :: r :: rs

/-- Python `str.strip()` (ASCII whitespace). -/
def pyStrip (l : List Char) : List Char := stripTrailingWs (stripLeadingWs l)

/-- Python `s.split(sep)` for a one-character separator: splits at every
occurrence, keeping empty parts. -/
def pySplitAll (sep : Char) : List Char → List (List Char)
  | [] => [[]]
  | c :: cs =>
    if c = sep then [] :: pySplitAll sep cs
    else
      match pySplitAll sep cs with
      | [] => [[c]]
      | p :: ps => (c :: p) :: ps

/-- Python `s.split(sep, 1)`: splits at the first occurrence only. -/
def pySplitMax1 (sep : Char) : List Char → List (List Char)
  | [] => [[]]
  | c :: cs =>
    if c = sep then [[], cs]
    else
      match pySplitMax1 sep cs with
      | [] => [[c]]
      | p :: ps => (c :: p) :: ps

def toLowerAscii (c : Char) : Char :=
  if 'A' ≤ c && c ≤ 'Z' then Char.ofNat (c.toNat + 32) else c

/-- Does `l`, lowercased, equal the (already lowercase) target `t`? -/
def lowersTo (l t : List Char) : Bool :=
  decide (l.map toLowerAscii = t)

/-! Python floats, modelled exactly. -/

/-- A Python float: finite values are kept as exact rationals (the decimal
value denoted by the literal; binary64 rounding is irrelevant to the
claims), plus the two infinities and nan produced by `float("inf")` /
`float("nan")`. -/
inductive PyFloat where
  | finite (q : ℚ)
  | posInf
  | negInf
  | nan
deriving DecidableEq, Repr

/-- Python `w <= 0` on a float `w`: false for `inf` and for `nan`
(every comparison with nan is false), true for `-inf`. -/
def pyFloatLeZero : PyFloat → Bool
  | .finite q => decide (q ≤ 0)
  | .posInf => false
  | .negInf => true
  | .nan => false

def digitVal (c : Char) : Nat := c.toNat - 48

/-- Consume the rest of a CPython `digitpart` (digits with single
underscores allowed between digits), accumulating the value and the digit
count; returns the remainder at the first character that cannot extend it. -/
def digitsRest (acc n : Nat) : List Char → Nat × Nat × List Char
  | [] => (acc, n, [])
  | [c] =>
    if c.isDigit then (10 * acc + digitVal c, n + 1, [])
    else (acc, n, [c])
  | c :: d :: cs2 =>
    if c.isDigit then digitsRest (10 * acc + digitVal c) (n + 1) (d :: cs2)
    else if c = '_' then
      (if d.isDigit then digitsRest (10 * acc + digitVal d) (n + 1) cs2
       else (acc, n, c :: d :: cs2))
    else (acc, n, c :: d :: cs2)

/-- CPython `digitpart`: at least one digit, underscores only between digits.
Returns (value, digit count, rest). -/
def digitpart : List Char → Option (Nat × Nat × List Char)
  | [] => none
  | c :: cs => if c.isDigit then some (digitsRest (digitVal c) 1 cs) else none

/-- The mantissa of a CPython float literal: `digitpart ['.' [digitpart]]`
or `'.' digitpart`. Returns (all mantissa digits as one integer, number of
fractional digits, rest). -/
def parseMantissa (l : List Char) : Option (Nat × Nat × List Char) :=
  match digitpart l with
  | some (ip, _, rest) =>
    if rest.head? = some '.' then
      match digitpart rest.tail with
      | some (fp, fn, r3) => some (ip * 10 ^ fn + fp, fn, r3)
      | none => some (ip, 0, rest.tail)
    else some (ip, 0, rest)
  | none =>
    if l.head? = some '.' then
      match digitpart l.tail with
      | some (fp, fn, r3) => some (fp, fn, r3)
      | none => none
    else none

/-- The optional exponent of a CPython float literal, applied to the whole
remaining input: empty means exponent 0; otherwise `('e'|'E') [sign]
digitpart` must consume everything. -/
def parseExp : List Char → Option Int
  | [] => some 0
  | c :: cs =>
    if c = 'e' || c = 'E' then
      let rest : Int × List Char :=
        match cs with
        | s :: r => if s = '+' then (1, r) else if s = '-' then (-1, r) else (1, cs)
        | [] => (1, cs)
      match digitpart rest.2 with
      | some (v, _, r2) => if r2 = [] then some (rest.1 * v) else none
      | none => none
    else none

/-- Python `float(s)` on an ASCII string: strip whitespace, optional sign,
then `inf`/`infinity`/`nan` (case-insensitive) or a float literal.
`none` models the `ValueError` raised on anything else. -/
def pyFloatOfChars (l : List Char) : Option PyFloat :=
  let s := pyStrip l
  let sb : Int × List Char :=
    if s.head? = some '+' then (1, s.tail)
    else if s.head? = some '-' then (-1, s.tail)
    else (1, s)
  if lowersTo sb.2 ['i', 'n', 'f'] || lowersTo sb.2 ['i', 'n', 'f', 'i', 'n', 'i', 't', 'y'] then
    some (if sb.1 = 1 then .posInf else .negInf)
  else if lowersTo sb.2 ['n', 'a', 'n'] then
    some .nan
  else
    match parseMantissa sb.2 with
    | some (m, fn, rest) =>
      match parseExp rest with
      | some e =>
        let d : Int := e - (fn : Int)
        some (.finite (if 0 ≤ d then mkRat (sb.1 * (m : Int) * ((10 ^ d.toNat : Nat) : Int)) 1
                       else mkRat (sb.1 * (m : Int)) (10 ^ (-d).toNat)))
      | none => none
    | none => none

/-! Python exceptions relevant to the embedded code. -/

/-- The exceptions the embedded code can raise: `ConnectionError` (raised
explicitly by the controller), `ValueError` (bad `float()` input, missing
port), `AttributeError` (attribute access on `None`), pyserial's
`PortNotOpenError` (write/read on a closed handle), and `IndexError`
(out-of-range list indexing). -/
inductive PyExn where
  | connectionError
  | valueError
  | attributeError
  | portNotOpenError
  | indexError
deriving DecidableEq, Repr

/-- Python `lst[i]`: raises `IndexError` when out of range. -/
def pyIndex {α : Type} (l : List α) (i : Nat) : Except PyExn α :=
  match l[i]? with
  | some x => .ok x
  | none => .error .indexError

/-! The serial transport (`ArduinoController` in `arduino_serial.py`). -/

/-- A pyserial `serial.Serial` handle: whether the port is open, and the
bytes written to the device so far. -/
structure SerialHandle where
  isOpen : Bool
  written : List Char
deriving DecidableEq, Repr

/-- The `ArduinoController` object state: stored port, baud rate, read
timeout, the `self.ser` attribute (`None` or a handle), and the
`self.connected` flag. -/
structure Controller where
  port : Option (List Char)
  baud : Nat
  timeoutRead : Nat
  ser : Option SerialHandle
  connected : Bool
deriving DecidableEq, Repr

/-- `ArduinoController.__init__` with default arguments:
`port=None, baud=115200, timeout=1`. -/
def initController : Controller :=
  { port := none, baud := 115200, timeoutRead := 1, ser := none, connected := false }

/-- The method `ArduinoController.is_connected`. -/
def is_connected (c : Controller) : Bool := c.connected

/-- Truthiness of the expression `self.is_connected` exactly as written in
`ArduinoController.write` (line 80): the attribute is referenced without
calling it, so it evaluates to a bound-method object, which is always truthy
in Python regardless of the controller's state. -/
def isConnectedAttrTruthy (_c : Controller) : Bool := true

/-- Bytes written on a pyserial handle: appends to the device stream when
open, raises `PortNotOpenError` when the handle is closed. -/
def serialWrite (h : SerialHandle) (data : List Char) : Except PyExn (SerialHandle × Nat) :=
  if h.isOpen then .ok ({ h with written := h.written ++ data }, data.length)
  else .error .portNotOpenError

/-- `ArduinoController.write`: guard `if not self.is_connected:` tests the
bound method itself (see `isConnectedAttrTruthy`), then `self.ser.write` is
attempted — `AttributeError` when `self.ser` is `None`. -/
def write (c : Controller) (data : List Char) : Except PyExn (Controller × Nat) :=
  if !(isConnectedAttrTruthy c) then .error .connectionError
  else
    match c.ser with
    | none => .error .attributeError
    | some h =>
      match serialWrite h data with
      | .ok (h2, n) => .ok ({ c with ser := some h2 }, n)
      | .error e => .error e

/-- `ArduinoController.write_line`: appends a newline when the data does not
already end in one, then delegates to `write`. -/
def write_line (c : Controller) (data : List Char) : Except PyExn (Controller × Nat) :=
  let d := if data.getLast? = some '\n' then data else data ++ ['\n']
  write c d

/-! Reading buffered lines. -/

/-- The receive side of the serial connection: `buf` holds the bytes that
have already arrived (`in_waiting = buf.length`); `future` holds the bytes
that will arrive during the blocking window of a single `readline()` call
(bounded by the configured read timeout). -/
structure SerialBuf where
  buf : List Char
  future : List Char
deriving DecidableEq, Repr

/-- Consume characters up to and including the first newline: returns the
consumed segment and the remainder. Consumes everything when there is no
newline. -/
def takeLine : List Char → List Char × List Char
  | [] => ([], [])
  | c :: cs =>
    if c = '\n' then ([c], cs)
    else
      let p := takeLine cs
      (c :: p.1, p.2)

/-- pyserial `readline()` with a finite read timeout: reads until a newline
or until the timeout. Returns (data read, new buffer state, blocked?),
where blocked records that the call waited beyond the data that had already
arrived (the buffered bytes contained no newline). -/
def serialReadline (s : SerialBuf) : List Char × SerialBuf × Bool :=
  let p := takeLine s.buf
  if p.1.getLast? = some '\n' then
    (p.1, { buf := p.2, future := s.future }, false)
  else
    let q := takeLine s.future
    (p.1 ++ q.1, { buf := q.2, future := [] }, true)

/-- `ArduinoController.read_line`: raises `ConnectionError` when not
connected; when `in_waiting > 0` calls `readline()` and strips the result;
otherwise returns the empty string. -/
def read_line (connected : Bool) (s : SerialBuf) :
    Except PyExn (List Char × SerialBuf × Bool) :=
  if !connected then .error .connectionError
  else if s.buf.length > 0 then
    let r := serialReadline s
    .ok (pyStrip r.1, r.2.1, r.2.2)
  else .ok ([], s, false)

/-! The connect handshake (`ArduinoController.connect`). -/

/-- What one iteration of the handshake polling loop observes on the wire:
nothing waiting, one waiting byte (which `read(1)` then consumes), or a
`serial.SerialException` raised by the transport. -/
inductive PollStep where
  | quiet
  | byte (c : Char)
  | raiseExn
deriving DecidableEq, Repr

/-- The environment a `connect` call runs against: whether
`serial.Serial(...)` succeeds, the elapsed time `time.time() - start_time`
observed at the k-th loop iteration, and what the k-th poll observes. -/
structure ConnectEnv where
  openOk : Bool
  clock : Nat → Nat
  steps : Nat → PollStep

/-- How the handshake polling loop exits: sentinel `'r'` seen, loop
condition `elapsed < timeout` failed, or a `SerialException` escaped a poll.
Each records the iteration index at which it happened. -/
inductive HsExit where
  | ready (k : Nat)
  | timedOut (k : Nat)
  | exn (k : Nat)
deriving DecidableEq, Repr

/-- The `while (time.time() - start_time) < timeout` polling loop inside
`connect`, run with explicit fuel (the source loop has no iteration bound;
`none` means the fuel ran out before the loop exited). -/
def handshakeLoop (env : ConnectEnv) (timeout : Nat) : Nat → Nat → Option HsExit
  | 0, _ => none
  | fuel + 1, k =>
    if env.clock k < timeout then
      match env.steps k with
      | .raiseExn => some (.exn k)
      | .quiet => handshakeLoop env timeout fuel (k + 1)
      | .byte c =>
        if c = 'r' then some (.ready k) else handshakeLoop env timeout fuel (k + 1)
    else some (.timedOut k)

/-- What a `connect` call produces: an early `return` (None) because already
connected, `return True` after a successful handshake, or a raised
exception. -/
inductive ConnectOutcome where
  | noop
  | success
  | raised (e : PyExn)
deriving DecidableEq, Repr

/-- Python truthiness of the optional `port` argument (`if port:`): `None`
and the empty string are falsy. -/
def pyTruthyStr : Option (List Char) → Bool
  | none => false
  | some p => !p.isEmpty

/-- Python truthiness of the optional `baudrate` argument (`if baudrate:`):
`None` and `0` are falsy. -/
def pyTruthyNat : Option Nat → Bool
  | none => false
  | some b => b != 0

/-- The default of `connect`'s `timeout` parameter in the source signature
(`def connect(self, port=None, baudrate=None, timeout = 5)`). -/
def connect_default_timeout : Nat := 5

/-- `ArduinoController.connect`, as a function of the controller state and
the environment. Mirrors the source: early return when already connected;
update stored port/baud from truthy arguments; `ValueError` when no port;
open the serial handle; poll for the `'r'` sentinel until `timeout`; on
timeout close the handle, clear `connected` and raise `ConnectionError`; a
`SerialException` (from open or from polling) is caught, clears `connected`
and re-raises as `ConnectionError` — without closing the handle. -/
def connectRun (c : Controller) (env : ConnectEnv) (fuel : Nat)
    (port : Option (List Char)) (baudrate : Option Nat) (timeout : Nat) :
    Option (Controller × ConnectOutcome) :=
  if c.connected then some (c, .noop)
  else
    let c1 := if pyTruthyStr port then { c with port := port } else c
    let c2 := if pyTruthyNat baudrate then { c1 with baud := baudrate.getD 0 } else c1
    if !(pyTruthyStr c2.port) then some (c2, .raised .valueError)
    else if !env.openOk then
      some ({ c2 with connected := false }, .raised .connectionError)
    else
      let c3 := { c2 with ser := some { isOpen := true, written := [] } }
      match handshakeLoop env timeout fuel 0 with
      | none => none
      | some (.ready _) => some ({ c3 with connected := true }, .success)
      | some (.timedOut _) =>
        some ({ c3 with ser := some { isOpen := false, written := [] },
                        connected := false }, .raised .connectionError)
      | some (.exn _) =>
        some ({ c3 with connected := false }, .raised .connectionError)

/-- `ArduinoController.disconnect`: closes the handle only when both a
handle exists and `connected` is set, then clears `connected`. -/
def disconnect (c : Controller) : Controller :=
  let c1 :=
    match c.ser with
    | some h => if c.connected then { c with ser := some { h with isOpen := false } } else c
    | none => c
  { c1 with connected := false }

/-- Does the controller hold an open serial handle? -/
def serOpen (c : Controller) : Bool :=
  match c.ser with
  | some h => h.isOpen
  | none => false

/-! Protocol string constants from `main.py`, as character lists. -/

def calSTARTs : List Char := ['C', 'A', 'L', '_', 'S', 'T', 'A', 'R', 'T']

def calCLEARs : List Char :=
  ['C', 'A', 'L', '_', 'C', 'L', 'E', 'A', 'R', '_', 'S', 'C', 'A', 'L', 'E']

def calTAREDs : List Char := ['C', 'A', 'L', '_', 'T', 'A', 'R', 'E', 'D']

def calWEIGHTtag : List Char := ['C', 'A', 'L', '_', 'W', 'E', 'I', 'G', 'H', 'T']

def calRAWtag : List Char := ['C', 'A', 'L', '_', 'R', 'A', 'W']

def calFACTORtag : List Char := ['C', 'A', 'L', '_', 'F', 'A', 'C', 'T', 'O', 'R']

def calTESTtag : List Char := ['C', 'A', 'L', '_', 'T', 'E', 'S', 'T']

def calERRORtag : List Char := ['C', 'A', 'L', '_', 'E', 'R', 'R', 'O', 'R']

def scaleFACTORtag : List Char :=
  ['S', 'C', 'A', 'L', 'E', '_', 'F', 'A', 'C', 'T', 'O', 'R']

def calWEIGHTpre : List Char := calWEIGHTtag ++ [':']

def calRAWpre : List Char := calRAWtag ++ [':']

def calFACTORpre : List Char := calFACTORtag ++ [':']

def calTESTpre : List Char := calTESTtag ++ [':']

def calERRORpre : List Char := calERRORtag ++ [':']

def scaleFACTORpre : List Char := scaleFACTORtag ++ [':']

/-! The event decoder (`CalibrationWindow.handle_message` plus the
`SCALE_FACTOR` branch of `ArduinoGUI.read_loop`). -/

/-- The typed event one incoming line is classified as. -/
inductive Event where
  | calStatus (tag : List Char) (payload : Option (List Char))
  | scaleFactorReply (v : PyFloat)
  | measurement (v : PyFloat)
  | unrecognized (raw : List Char)
deriving DecidableEq, Repr

/-- The classification performed by `CalibrationWindow.handle_message`, with
its fallible operations explicit: the `msg.split(":")[1]` indexing of the
`CAL_WEIGHT`/`CAL_RAW`/`CAL_FACTOR`/`CAL_TEST` branches and the
`msg.split(":", 1)[1]` of the `CAL_ERROR` branch can in principle raise
`IndexError`. An unmatched line falls through the `elif` chain and yields
`unrecognized`. -/
def handleMessageEvent (msg : List Char) : Except PyExn Event :=
  if msg = calSTARTs then .ok (.calStatus calSTARTs none)
  else if msg = calCLEARs then .ok (.calStatus calCLEARs none)
  else if msg = calTAREDs then .ok (.calStatus calTAREDs none)
  else if calWEIGHTpre.isPrefixOf msg then
    (pyIndex (pySplitAll ':' msg) 1).map (fun p => .calStatus calWEIGHTtag (some p))
  else if calRAWpre.isPrefixOf msg then
    (pyIndex (pySplitAll ':' msg) 1).map (fun p => .calStatus calRAWtag (some p))
  else if calFACTORpre.isPrefixOf msg then
    (pyIndex (pySplitAll ':' msg) 1).map (fun p => .calStatus calFACTORtag (some p))
  else if calTESTpre.isPrefixOf msg then
    (pyIndex (pySplitAll ':' msg) 1).map (fun p => .calStatus calTESTtag (some p))
  else if calERRORpre.isPrefixOf msg then
    (pyIndex (pySplitMax1 ':' msg) 1).map (fun p => .calStatus calERRORtag (some p))
  else .ok (.unrecognized msg)

/-- The payload extraction `data.split(":")[1]` performed by
`ArduinoGUI.read_loop` on a `SCALE_FACTOR:` line. -/
def scaleFactorPayload (data : List Char) : Except PyExn (List Char) :=
  pyIndex (pySplitAll ':' data) 1

/-- Does the line match any pattern `handle_message` recognizes? The
disjunction of the guards of its branch chain. -/
def recognizes (msg : List Char) : Bool :=
  decide (msg = calSTARTs) || decide (msg = calCLEARs) || decide (msg = calTAREDs) ||
  calWEIGHTpre.isPrefixOf msg || calRAWpre.isPrefixOf msg ||
  calFACTORpre.isPrefixOf msg || calTESTpre.isPrefixOf msg ||
  calERRORpre.isPrefixOf msg

/-! The calibration window (`CalibrationWindow` in `main.py`). -/

/-- Python `needle in hay` on strings: substring containment. -/
def containsSub (needle : List Char) : List Char → Bool
  | [] => needle.isEmpty
  | c :: t => needle.isPrefixOf (c :: t) || containsSub needle t

/-- The lowercase word the `CAL_ERROR` branch looks for in the error text
(`if "weight" in error.lower()`). -/
def weightWord : List Char := ['w', 'e', 'i', 'g', 'h', 't']

/-- The `self.state` strings used by `CalibrationWindow`. -/
def stInit : List Char := ['i', 'n', 'i', 't']

def stStarted : List Char := ['s', 't', 'a', 'r', 't', 'e', 'd']

def stClearing : List Char := ['c', 'l', 'e', 'a', 'r', 'i', 'n', 'g']

def stNeedWeight : List Char :=
  ['n', 'e', 'e', 'd', '_', 'w', 'e', 'i', 'g', 'h', 't']

/-- The commands the calibration window writes. -/
def calibrateCmd : List Char :=
  ['<', 'c', 'a', 'l', 'i', 'b', 'r', 'a', 't', 'e', '>']

def cancelCmd : List Char := ['<', 'c', 'a', 'n', 'c', 'e', 'l', '>']

/-- The command string `f"<weight:{weight}>"` sent by `on_next`. -/
def weightCmd (wt : List Char) : List Char :=
  ['<', 'w', 'e', 'i', 'g', 'h', 't', ':'] ++ wt ++ ['>']

/-- Is a written command a `<weight:...>` command? -/
def isWeightCmd (m : List Char) : Bool :=
  List.isPrefixOf ['<', 'w', 'e', 'i', 'g', 'h', 't', ':'] m

/-- The `CalibrationWindow` state visible to the claims: the `self.state`
string, whether the Next button is clickable, whether its command has been
rebound to closing the window (the `CAL_TEST` branch), and the commands
written to the device so far. -/
structure CalWin where
  state : List Char
  nextEnabled : Bool
  nextIsClose : Bool
  sent : List (List Char)
deriving DecidableEq, Repr

/-- The window right after `__init__`/`start`: state `"init"`, Next hidden,
`<calibrate>` written. -/
def calWinInit : CalWin :=
  { state := stInit, nextEnabled := false, nextIsClose := false, sent := [calibrateCmd] }

/-- `CalibrationWindow.handle_message`: the state/UI updates of each branch. -/
def handleMessageState (w : CalWin) (msg : List Char) : CalWin :=
  if msg = calSTARTs then { w with state := stStarted }
  else if msg = calCLEARs then { w with state := stClearing }
  else if msg = calTAREDs then { w with state := stNeedWeight, nextEnabled := true }
  else if calWEIGHTpre.isPrefixOf msg then { w with nextEnabled := false }
  else if calRAWpre.isPrefixOf msg then w
  else if calFACTORpre.isPrefixOf msg then w
  else if calTESTpre.isPrefixOf msg then
    { w with nextEnabled := true, nextIsClose := true }
  else if calERRORpre.isPrefixOf msg then
    match (pySplitMax1 ':' msg).get? 1 with
    | some err =>
      if containsSub weightWord (err.map toLowerAscii) then { w with nextEnabled := true }
      else w
    | none => w
  else w

/-- `CalibrationWindow.on_next` with the text currently in the weight entry:
only acts in state `"need_weight"`; strips the text, rejects empty input,
input `float()` cannot parse, and values `<= 0`, sending nothing and
changing nothing; otherwise writes `<weight:...>` (with the stripped text
interpolated) and disables Next. -/
def on_next (w : CalWin) (txt : List Char) : CalWin :=
  if w.state = stNeedWeight then
    let wt := pyStrip txt
    if wt = [] then w
    else
      match pyFloatOfChars wt with
      | some v =>
        if pyFloatLeZero v then w
        else { w with sent := w.sent ++ [weightCmd wt], nextEnabled := false }
      | none => w
  else w

/-- One user or device event hitting the calibration window. -/
inductive CalEvent where
  | deviceMsg (m : List Char)
  | nextClick (entry : List Char)
  | cancelClick
deriving DecidableEq, Repr

/-- One step of the calibration window: a device line goes through
`handle_message`; a Next click fires `on_next` when the button is clickable
and still bound to it; Cancel writes `<cancel>`. -/
def calStep (w : CalWin) (e : CalEvent) : CalWin :=
  match e with
  | .deviceMsg m => handleMessageState w m
  | .nextClick t => if w.nextEnabled && !w.nextIsClose then on_next w t else w
  | .cancelClick => { w with sent := w.sent ++ [cancelCmd] }

/-- A sequence of events against the calibration window. -/
def calRun (w : CalWin) (es : List CalEvent) : CalWin :=
  es.foldl calStep w

/-! The main GUI (`ArduinoGUI` in `main.py`): line processing and the
recording session. Wall-clock instants are rationals (seconds). -/

/-- The `ArduinoGUI` state the claims touch: the recording session fields
(`self.recording`, the open CSV file, the rows written, `record_start_time`,
`record_duration`), the scale-factor round trip flags, and the displayed
lines. A recorded row is (elapsed seconds, weight). -/
structure Gui where
  recording : Bool
  sinkOpen : Bool
  waitingScale : Bool
  scaleFactor : Option PyFloat
  displayed : List (List Char)
  rows : List (ℚ × PyFloat)
  startTime : ℚ
  duration : ℚ
deriving DecidableEq, Repr

/-- `ArduinoGUI.record_measurement`: tries `float(data)`; on success appends
one row with the elapsed time and the parsed weight; a `ValueError` is
swallowed and nothing is recorded. -/
def record_measurement (g : Gui) (now : ℚ) (data : List Char) : Gui :=
  match pyFloatOfChars data with
  | some w => { g with rows := g.rows ++ [(now - g.startTime, w)] }
  | none => g

/-- The body of `ArduinoGUI.read_loop` for one non-empty line already read:
display it; when it starts with `SCALE_FACTOR:` and a scale query is
pending, parse `float(data.split(":")[1])` (whose `ValueError` would escape
the loop's `try`); then, when recording, pass it to `record_measurement`. -/
def processLine (g : Gui) (now : ℚ) (data : List Char) : Except PyExn Gui :=
  if data = [] then .ok g
  else
    let g1 := { g with displayed := g.displayed ++ [data] }
    let afterScale : Except PyExn Gui :=
      if scaleFACTORpre.isPrefixOf data && g1.waitingScale then
        match scaleFactorPayload data with
        | .error e => .error e
        | .ok payload =>
          match pyFloatOfChars payload with
          | some v => .ok { g1 with scaleFactor := some v, waitingScale := false }
          | none => .error .valueError
      else .ok g1
    match afterScale with
    | .error e => .error e
    | .ok g2 => .ok (if g2.recording then record_measurement g2 now data else g2)

/-- `ArduinoGUI.stop_recording`: closes the CSV file and clears the
recording flag. -/
def stop_recording (g : Gui) : Gui :=
  { g with sinkOpen := false, recording := false }

/-- The recording-session events: a `check_recording_duration` tick, a
measurement line arriving through `read_loop`, the user's Stop click, and a
successful `start_recording`. -/
inductive RecEvent where
  | tick (now : ℚ)
  | measure (now : ℚ) (line : List Char)
  | stopClick
  | startRec (now : ℚ) (dur : ℚ)

/-- One recording-session step. A tick mirrors `check_recording_duration`:
only acts while recording, computes `remaining = duration - elapsed`, and
stops the session unless `remaining > 0`. A measurement line is recorded
only while the recording flag is set (the guard in `read_loop`). -/
def recStep (g : Gui) (e : RecEvent) : Gui :=
  match e with
  | .tick now =>
    if g.recording then
      (if 0 < g.duration - (now - g.startTime) then g else stop_recording g)
    else g
  | .measure now line => if g.recording then record_measurement g now line else g
  | .stopClick => stop_recording g
  | .startRec now dur =>
    { g with recording := true, sinkOpen := true, startTime := now, duration := dur }

/-- A sequence of recording-session events. -/
def recRun (g : Gui) (es : List RecEvent) : Gui :=
  es.foldl recStep g

instance {ε α : Type} [DecidableEq ε] [DecidableEq α] : DecidableEq (Except ε α) :=
  fun a b =>
    match a, b with
    | .ok x, .ok y =>
      if h : x = y then .isTrue (by rw [h]) else .isFalse (by simp [h])
    | .error e, .error f =>
      if h : e = f then .isTrue (by rw [h]) else .isFalse (by simp [h])
    | .ok _, .error _ => .isFalse (by simp)
    | .error _, .ok _ => .isFalse (by simp)

/-- Do two lists disagree at some position within their common length? -/
def diffAt : List Char → List Char → Bool
  | a :: as, b :: bs => decide (¬ a = b) || diffAt as bs
  | _, _ => false

/-- A calibration window sitting in `need_weight` with the Next button
clickable and nothing sent yet. -/
def calWinAtNeedWeight : CalWin :=
  { state := stNeedWeight, nextEnabled := true, nextIsClose := false, sent := [] }

/-! Helper lemmas about the split functions. -/

lemma pySplitAll_ne_nil (sep : Char) (l : List Char) : pySplitAll sep l ≠ [] := by
  cases l with
  | nil => simp [pySplitAll]
  | cons c cs =>
    unfold pySplitAll
    by_cases h : c = sep
    · simp [h]
    · simp only [h, if_false]
      cases pySplitAll sep cs <;> simp

lemma pySplitAll_cons_of_ne {sep c : Char} {cs : List Char} {p : List Char}
    {ps : List (List Char)} (h : ¬ c = sep) (heq : pySplitAll sep cs = p :: ps) :
    pySplitAll sep (c :: cs) = (c :: p) :: ps := by
  unfold pySplitAll
  simp [h, heq]

lemma pySplitAll_sepFree {sep : Char} {l : List Char} (h : sep ∉ l) :
    pySplitAll sep l = [l] := by
  induction l with
  | nil => rfl
  | cons c cs ih =>
    have hc : ¬ c = sep := fun he => h (by simp [he])
    have hcs : sep ∉ cs := fun hm => h (by simp [hm])
    exact pySplitAll_cons_of_ne hc (ih hcs)

lemma pySplitAll_append {sep : Char} {a b : List Char} (h : sep ∉ a) :
    pySplitAll sep (a ++ sep :: b) = a :: pySplitAll sep b := by
  induction a with
  | nil => simp [pySplitAll]
  | cons c as ih =>
    have hc : ¬ c = sep := fun he => h (by simp [he])
    have has : sep ∉ as := fun hm => h (by simp [hm])
    simpa using pySplitAll_cons_of_ne hc (ih has)

lemma pySplitAll_length (sep : Char) (l : List Char) :
    (pySplitAll sep l).length = l.count sep + 1 := by
  induction l with
  | nil => simp [pySplitAll]
  | cons c cs ih =>
    unfold pySplitAll
    by_cases h : c = sep
    · simp [h, ih, List.count_cons]
    · rcases heq : pySplitAll sep cs with _ | ⟨p, ps⟩
      · exact absurd heq (pySplitAll_ne_nil sep cs)
      · have hne : (sep == c) = false := by
          simp [Ne.symm h]
        simp only [h, if_false, heq, List.length_cons, List.count_cons, hne, if_false]
        have := ih
        rw [heq] at this
        simp at this
        simp [this, h]

lemma pySplitMax1_sepFree {sep : Char} {l : List Char} (h : sep ∉ l) :
    pySplitMax1 sep l = [l] := by
  induction l with
  | nil => rfl
  | cons c cs ih =>
    have hc : ¬ c = sep := fun he => h (by simp [he])
    have hcs : sep ∉ cs := fun hm => h (by simp [hm])
    unfold pySplitMax1
    simp [hc, ih hcs]

lemma pySplitMax1_append {sep : Char} {a b : List Char} (h : sep ∉ a) :
    pySplitMax1 sep (a ++ sep :: b) = [a, b] := by
  induction a with
  | nil => simp [pySplitMax1]
  | cons c as ih =>
    have hc : ¬ c = sep := fun he => h (by simp [he])
    have has : sep ∉ as := fun hm => h (by simp [hm])
    unfold pySplitMax1
    simp [hc, ih has]

lemma pySplitMax1_length_of_mem {sep : Char} {l : List Char} (h : sep ∈ l) :
    (pySplitMax1 sep l).length = 2 := by
  induction l with
  | nil => cases h
  | cons c cs ih =>
    unfold pySplitMax1
    by_cases hc : c = sep
    · simp [hc]
    · have hm : sep ∈ cs := by
        rcases List.mem_cons.1 h with he | hm
        · exact absurd he.symm hc
        · exact hm
      rcases heq : pySplitMax1 sep cs with _ | ⟨p, ps⟩
      · have := ih hm
        rw [heq] at this
        simp at this
      · have := ih hm
        rw [heq] at this
        simp at this
        simp [hc, heq, this]

/-! Helper lemmas for showing branch guards false on symbolic suffixes. -/

lemma append_ne_of_diffAt {a b : List Char} (h : diffAt a b = true) (v : List Char) :
    a ++ v ≠ b := by
  induction a generalizing b with
  | nil => cases b <;> simp [diffAt] at h
  | cons c as ih =>
    cases b with
    | nil => simp
    | cons d bs =>
      simp only [diffAt, Bool.or_eq_true, decide_eq_true_eq] at h
      intro he
      rw [List.cons_append] at he
      injection he with h1 h2
      rcases h with hne | hdiff
      · exact hne h1
      · exact ih hdiff h2

lemma isPrefixOf_append_false_of_diffAt {p b : List Char} (h : diffAt p b = true)
    (v : List Char) : p.isPrefixOf (b ++ v) = false := by
  induction p generalizing b with
  | nil => cases b <;> simp [diffAt] at h
  | cons c ps ih =>
    cases b with
    | nil => simp [diffAt] at h
    | cons d bs =>
      simp only [diffAt, Bool.or_eq_true, decide_eq_true_eq] at h
      rw [List.cons_append, List.isPrefixOf_cons₂]
      rcases h with hne | hdiff
      · simp [hne]
      · simp [ih hdiff]

lemma isPrefixOf_append_self (p v : List Char) : p.isPrefixOf (p ++ v) = true := by
  rw [List.isPrefixOf_iff_prefix]
  exact List.prefix_append p v

/-! Helper lemmas about stripping and the float parser. -/

lemma stripLeadingWs_cons_of_nonspace {c : Char} (t : List Char)
    (h : isPySpace c = false) : stripLeadingWs (c :: t) = c :: t := by
  simp [stripLeadingWs, List.dropWhile_cons, h]

lemma stripTrailingWs_cons_of_nonspace {c : Char} (t : List Char)
    (h : isPySpace c = false) : stripTrailingWs (c :: t) = c :: stripTrailingWs t := by
  rcases heq : stripTrailingWs t with _ | ⟨r, rs⟩ <;>
    simp [stripTrailingWs, heq, h]

lemma pyStrip_cons_of_nonspace {c : Char} (t : List Char) (h : isPySpace c = false) :
    pyStrip (c :: t) = c :: stripTrailingWs t := by
  rw [pyStrip, stripLeadingWs_cons_of_nonspace t h, stripTrailingWs_cons_of_nonspace t h]

/-- A string whose first character is not whitespace, not a sign, not a
digit, not a dot, and not the start of `inf`/`nan` (case-insensitively) is
rejected by `float()`. -/
lemma pyFloatOfChars_head_reject {c : Char} (t : List Char)
    (h1 : isPySpace c = false) (h2 : ¬ c = '+') (h3 : ¬ c = '-')
    (h4 : c.isDigit = false) (h5 : ¬ c = '.')
    (h6 : ¬ toLowerAscii c = 'i') (h7 : ¬ toLowerAscii c = 'n') :
    pyFloatOfChars (c :: t) = none := by
  unfold pyFloatOfChars
  rw [pyStrip_cons_of_nonspace t h1]
  simp only [List.head?_cons, List.tail_cons, Option.some.injEq, h2, if_false, h3,
    lowersTo, List.map_cons, decide_eq_true_eq]
  have hi : ¬ (toLowerAscii c :: List.map toLowerAscii (stripTrailingWs t)
      = ['i', 'n', 'f']) := by
    intro he
    injection he with he1 _
    exact h6 he1
  have hi2 : ¬ (toLowerAscii c :: List.map toLowerAscii (stripTrailingWs t)
      = ['i', 'n', 'f', 'i', 'n', 'i', 't', 'y']) := by
    intro he
    injection he with he1 _
    exact h6 he1
  have hn : ¬ (toLowerAscii c :: List.map toLowerAscii (stripTrailingWs t)
      = ['n', 'a', 'n']) := by
    intro he
    injection he with he1 _
    exact h7 he1
  simp only [hi, hi2, hn, decide_False, Bool.or_self, Bool.false_eq_true, if_false]
  rw [parseMantissa]
  simp [digitpart, h4, h5]

lemma pyFloatOfChars_nil : pyFloatOfChars [] = none := by decide

/-- A line that `float()` accepts cannot start with `SCALE_FACTOR:`. -/
lemma not_scale_of_parses {L : List Char} {v : PyFloat}
    (hv : pyFloatOfChars L = some v) : scaleFACTORpre.isPrefixOf L = false := by
  cases hp : scaleFACTORpre.isPrefixOf L with
  | false => rfl
  | true =>
    exfalso
    rw [List.isPrefixOf_iff_prefix] at hp
    obtain ⟨t, rfl⟩ := hp
    have : scaleFACTORpre ++ t = 'S' :: (['C', 'A', 'L', 'E', '_', 'F', 'A', 'C',
        'T', 'O', 'R', ':'] ++ t) := by
      simp [scaleFACTORpre, scaleFACTORtag]
    rw [this, pyFloatOfChars_head_reject _ (by decide) (by decide) (by decide)
      (by decide) (by decide) (by decide) (by decide)] at hv
    cases hv

/-! Helper lemmas about indexing and the handshake loop. -/

lemma pyIndex_ok_of_lt {α : Type} (l : List α) (i : Nat) (h : i < l.length) :
    ∃ x, pyIndex l i = .ok x := by
  rcases heq : l[i]? with _ | x
  · rw [List.getElem?_eq_none_iff] at heq
    omega
  · exact ⟨x, by simp [pyIndex, heq]⟩

lemma colon_mem_of_isPrefixOf {pre msg : List Char} (hc : ':' ∈ pre)
    (h : pre.isPrefixOf msg = true) : ':' ∈ msg := by
  rw [List.isPrefixOf_iff_prefix] at h
  obtain ⟨t, rfl⟩ := h
  exact List.mem_append_left t hc

lemma splitAll_two_le_of_mem {sep : Char} {msg : List Char} (h : sep ∈ msg) :
    2 ≤ (pySplitAll sep msg).length := by
  rw [pySplitAll_length]
  have := List.count_pos_iff.2 h
  omega

/-! Helper lemmas about line reading. -/

lemma takeLine_of_not_mem {l : List Char} (h : '\n' ∉ l) : takeLine l = (l, []) := by
  induction l with
  | nil => rfl
  | cons c cs ih =>
    have hc : ¬ c = '\n' := fun he => h (by simp [he])
    have hcs : '\n' ∉ cs := fun hm => h (by simp [hm])
    simp [takeLine, hc, ih hcs]

lemma takeLine_append {a b : List Char} (h : '\n' ∉ a) :
    takeLine (a ++ '\n' :: b) = (a ++ ['\n'], b) := by
  induction a with
  | nil => simp [takeLine]
  | cons c as ih =>
    have hc : ¬ c = '\n' := fun he => h (by simp [he])
    have has : '\n' ∉ as := fun hm => h (by simp [hm])
    simp [takeLine, hc, ih has]

lemma stripTrailingWs_append_space {a : List Char} {c : Char} (hc : isPySpace c = true) :
    stripTrailingWs (a ++ [c]) = stripTrailingWs a := by
  induction a with
  | nil => simp [stripTrailingWs, hc]
  | cons x xs ih => simp [stripTrailingWs, ih]

lemma pyStrip_append_space {a : List Char} {c : Char} (hc : isPySpace c = true) :
    pyStrip (a ++ [c]) = pyStrip a := by
  unfold pyStrip stripLeadingWs
  rw [List.dropWhile_append]
  by_cases hemp : (a.dropWhile (fun x => isPySpace x)).isEmpty
  · rw [if_pos hemp]
    have : List.dropWhile (fun x => isPySpace x) [c] = [] := by
      simp [List.dropWhile_cons, hc]
    rw [this]
    rw [List.isEmpty_iff] at hemp
    rw [hemp]
  · rw [if_neg hemp]
    exact stripTrailingWs_append_space hc

lemma getLast?_ne_of_not_mem {l : List Char} (h : '\n' ∉ l) :
    l.getLast? ≠ some '\n' := by
  intro he
  exact h (List.mem_of_getLast?_eq_some he)

/-! Claim C1. -/

/-- C1: on a controller that is not connected (a fresh `ArduinoController()`
has `connected = False` and `ser = None`), `write_line("hi")` does NOT fail
with the specified `ConnectionError`: the guard in `write` reads
`if not self.is_connected:` — the bound method object, never called — which
is always truthy, so the guard never fires and the call instead dies with
`AttributeError` from `None.write(...)`. The claim's connected-case newline
behaviour is real, but its not-connected clause names the wrong failure. -/
theorem write_line_notConnected_attributeError :
    write_line initController ['h', 'i'] = .error .attributeError ∧
    write_line initController ['h', 'i'] ≠ .error .connectionError ∧
    is_connected initController = false ∧
    isConnectedAttrTruthy initController = true := by
  decide

/-! Claim C10. -/

/-- C10: calling `connect` on an already-connected controller hits the
`if self.connected: return` early exit: the stored port, baud rate, read
timeout and serial handle are all returned unchanged, no handshake runs, and
the outcome is the bare `return` (`None`) — not the `return True` of a fresh
successful connect. -/
theorem connect_whenConnected_noop (c : Controller) (env : ConnectEnv)
    (fuel : Nat) (port : Option (List Char)) (baudrate : Option Nat) (timeout : Nat)
    (h : c.connected = true) :
    connectRun c env fuel port baudrate timeout = some (c, .noop) ∧
    ConnectOutcome.noop ≠ ConnectOutcome.success := by
  refine ⟨?_, by simp⟩
  simp [connectRun, h]

/-- Witness for C10: a concrete already-connected controller. -/
theorem connect_whenConnected_noop_witness :
    connectRun { initController with connected := true }
        { openOk := true, clock := fun k => k, steps := fun _ => .quiet } 5 none none 5
      = some ({ initController with connected := true }, .noop) :=
  (connect_whenConnected_noop { initController with connected := true }
    { openOk := true, clock := fun k => k, steps := fun _ => .quiet } 5 none none 5 rfl).1

/-! Claim C7. -/

/-- C7 counterexample: with only the newline-less partial line `"ab"`
buffered (and nothing more arriving), `read_line` is not non-blocking and
does not retain the partial data: it blocks past the already-arrived bytes
(up to the read timeout, via pyserial `readline()`), returns the partial
`"ab"`, and leaves the buffer empty instead of retaining it. -/
theorem read_line_partial_consumed_counterexample :
    read_line true { buf := ['a', 'b'], future := [] }
      = .ok (['a', 'b'], { buf := [], future := [] }, true) ∧
    (['a', 'b'] : List Char) ≠ [] ∧
    ({ buf := [], future := [] } : SerialBuf).buf ≠ ['a', 'b'] := by
  decide

/-- C7 amended: `read_line` drains one complete buffered line without
blocking when the buffer contains a newline, retaining the rest; when the
buffer is non-empty but contains no newline it blocks up to the read
timeout and then returns — and consumes — the partial data; when the buffer
is empty it returns the empty string without blocking; and it raises
`ConnectionError` when not connected. -/
theorem read_line_behavior :
    (∀ (s : SerialBuf) (a b : List Char), s.buf = a ++ '\n' :: b → '\n' ∉ a →
      read_line true s = .ok (pyStrip a, { buf := b, future := s.future }, false)) ∧
    (∀ s : SerialBuf, s.buf ≠ [] → '\n' ∉ s.buf → s.future = [] →
      read_line true s = .ok (pyStrip s.buf, { buf := [], future := [] }, true)) ∧
    (∀ s : SerialBuf, s.buf = [] → read_line true s = .ok ([], s, false)) ∧
    (∀ s : SerialBuf, read_line false s = .error .connectionError) := by
  refine ⟨?_, ?_, ?_, ?_⟩
  · intro s a b hbuf hna
    have hrl : serialReadline s = (a ++ ['\n'], { buf := b, future := s.future }, false) := by
      unfold serialReadline
      rw [hbuf, takeLine_append hna]
      simp
    have hlen : 0 < s.buf.length := by
      rw [hbuf]
      simp
    unfold read_line
    rw [if_neg (by simp), if_pos (by omega), hrl]
    simp [pyStrip_append_space (show isPySpace '\n' = true from by decide)]
  · intro s hne hnm hfut
    have hrl : serialReadline s = (s.buf, { buf := [], future := [] }, true) := by
      unfold serialReadline
      rw [takeLine_of_not_mem hnm, hfut]
      simp [getLast?_ne_of_not_mem hnm, takeLine]
    have hlen : 0 < s.buf.length := List.length_pos.2 hne
    unfold read_line
    rw [if_neg (by simp), if_pos (by omega), hrl]
  · intro s hbuf
    unfold read_line
    rw [if_neg (by simp), if_neg (by simp [hbuf])]
  · intro s
    unfold read_line
    rw [if_pos (by simp)]

/-- Witness for C7 amended: concrete buffers for each clause. -/
theorem read_line_behavior_witness :
    read_line true { buf := ['x', '\n', 'y'], future := [] }
      = .ok (['x'], { buf := ['y'], future := [] }, false) ∧
    read_line true { buf := ['a'], future := [] }
      = .ok (['a'], { buf := [], future := [] }, true) ∧
    read_line true { buf := [], future := [] }
      = .ok ([], { buf := [], future := [] }, false) ∧
    read_line false { buf := ['x'], future := [] } = .error .connectionError := by
  refine ⟨?_, ?_, ?_, ?_⟩
  · have h := read_line_behavior.1 { buf := ['x', '\n', 'y'], future := [] } ['x'] ['y']
      (by decide) (by decide)
    simpa using h
  · have h := read_line_behavior.2.1 { buf := ['a'], future := [] }
      (by decide) (by decide) rfl
    simpa using h
  · exact read_line_behavior.2.2.1 { buf := [], future := [] } rfl
  · exact read_line_behavior.2.2.2 { buf := ['x'], future := [] }

/-! Claim C9. -/

/-- C9: the classification in `handle_message` is total — for every incoming
line it produces exactly one event and never raises: the only fallible
operations, the `split(":")[1]` indexings, are each guarded by a
`startswith` check that guarantees a colon and hence at least two split
parts; a line matching no branch falls through to `unrecognized` (displayed
but not acted on). -/
theorem handleMessageEvent_total (msg : List Char) :
    ∃ e, handleMessageEvent msg = .ok e ∧
      (recognizes msg = false → e = .unrecognized msg) := by
  unfold handleMessageEvent
  by_cases h1 : msg = calSTARTs
  · refine ⟨.calStatus calSTARTs none, by simp [h1], ?_⟩
    intro hr
    rw [recognizes] at hr
    simp [h1] at hr
  by_cases h2 : msg = calCLEARs
  · refine ⟨.calStatus calCLEARs none, by subst h2; decide, ?_⟩
    intro hr
    rw [recognizes] at hr
    simp [h2] at hr
  by_cases h3 : msg = calTAREDs
  · refine ⟨.calStatus calTAREDs none, by subst h3; decide, ?_⟩
    intro hr
    rw [recognizes] at hr
    simp [h3] at hr
  by_cases h4 : calWEIGHTpre.isPrefixOf msg = true
  · have hmem : ':' ∈ msg := colon_mem_of_isPrefixOf (by decide) h4
    obtain ⟨x, hx⟩ := pyIndex_ok_of_lt (pySplitAll ':' msg) 1
      (by have := splitAll_two_le_of_mem hmem; omega)
    refine ⟨.calStatus calWEIGHTtag (some x), by simp [h1, h2, h3, h4, hx, Except.map], ?_⟩
    intro hr
    rw [recognizes] at hr
    simp [h4] at hr
  by_cases h5 : calRAWpre.isPrefixOf msg = true
  · have hmem : ':' ∈ msg := colon_mem_of_isPrefixOf (by decide) h5
    obtain ⟨x, hx⟩ := pyIndex_ok_of_lt (pySplitAll ':' msg) 1
      (by have := splitAll_two_le_of_mem hmem; omega)
    refine ⟨.calStatus calRAWtag (some x),
      by simp [h1, h2, h3, h4, h5, hx, Except.map], ?_⟩
    intro hr
    rw [recognizes] at hr
    simp [h5] at hr
  by_cases h6 : calFACTORpre.isPrefixOf msg = true
  · have hmem : ':' ∈ msg := colon_mem_of_isPrefixOf (by decide) h6
    obtain ⟨x, hx⟩ := pyIndex_ok_of_lt (pySplitAll ':' msg) 1
      (by have := splitAll_two_le_of_mem hmem; omega)
    refine ⟨.calStatus calFACTORtag (some x),
      by simp [h1, h2, h3, h4, h5, h6, hx, Except.map], ?_⟩
    intro hr
    rw [recognizes] at hr
    simp [h6] at hr
  by_cases h7 : calTESTpre.isPrefixOf msg = true
  · have hmem : ':' ∈ msg := colon_mem_of_isPrefixOf (by decide) h7
    obtain ⟨x, hx⟩ := pyIndex_ok_of_lt (pySplitAll ':' msg) 1
      (by have := splitAll_two_le_of_mem hmem; omega)
    refine ⟨.calStatus calTESTtag (some x),
      by simp [h1, h2, h3, h4, h5, h6, h7, hx, Except.map], ?_⟩
    intro hr
    rw [recognizes] at hr
    simp [h7] at hr
  by_cases h8 : calERRORpre.isPrefixOf msg = true
  · have hmem : ':' ∈ msg := colon_mem_of_isPrefixOf (by decide) h8
    obtain ⟨x, hx⟩ := pyIndex_ok_of_lt (pySplitMax1 ':' msg) 1
      (by rw [pySplitMax1_length_of_mem hmem]; omega)
    refine ⟨.calStatus calERRORtag (some x),
      by simp [h1, h2, h3, h4, h5, h6, h7, h8, hx, Except.map], ?_⟩
    intro hr
    rw [recognizes] at hr
    simp [h8] at hr
  · exact ⟨.unrecognized msg,
      by simp [h1, h2, h3, h4, h5, h6, h7, h8], fun _ => rfl⟩

/-- Witness for C9 at a concrete unrecognized line. -/
theorem handleMessageEvent_total_witness :
    ∃ e, handleMessageEvent ['h', 'i'] = .ok e ∧
      (recognizes ['h', 'i'] = false → e = .unrecognized ['h', 'i']) :=
  handleMessageEvent_total ['h', 'i']

/-! Claim C2. -/

/-- C2 counterexample: for the recognized prefix `CAL_WEIGHT` and the
payload `"1:2"` (which contains a colon), the decoder acts on `"1"` — the
substring between the first and second colon, from `msg.split(":")[1]` —
not on the full suffix `"1:2"` the claim promises. -/
theorem calWeight_payload_truncated_counterexample :
    handleMessageEvent (calWEIGHTpre ++ ['1', ':', '2'])
      = .ok (.calStatus calWEIGHTtag (some ['1'])) ∧
    (['1'] : List Char) ≠ ['1', ':', '2'] := by
  decide

/-- C2 amended: for `CAL_WEIGHT`/`CAL_RAW`/`CAL_FACTOR`/`CAL_TEST` (and the
`SCALE_FACTOR` extraction in `read_loop`) the payload acted on is
`split(":")[1]` — the full suffix after the first colon only when the
payload contains no further colon; with an embedded colon it is truncated
at the second colon. Only `CAL_ERROR` uses the first-colon-only split and
receives the entire suffix, embedded colons preserved. -/
theorem decoder_payload_split :
    (∀ v : List Char, ':' ∉ v →
      handleMessageEvent (calWEIGHTpre ++ v) = .ok (.calStatus calWEIGHTtag (some v))) ∧
    (∀ v : List Char, ':' ∉ v →
      handleMessageEvent (calRAWpre ++ v) = .ok (.calStatus calRAWtag (some v))) ∧
    (∀ v : List Char, ':' ∉ v →
      handleMessageEvent (calFACTORpre ++ v) = .ok (.calStatus calFACTORtag (some v))) ∧
    (∀ v : List Char, ':' ∉ v →
      handleMessageEvent (calTESTpre ++ v) = .ok (.calStatus calTESTtag (some v))) ∧
    (∀ v : List Char,
      handleMessageEvent (calERRORpre ++ v) = .ok (.calStatus calERRORtag (some v))) ∧
    (∀ v : List Char, ':' ∉ v → scaleFactorPayload (scaleFACTORpre ++ v) = .ok v) ∧
    (∀ v w : List Char, ':' ∉ v →
      handleMessageEvent (calWEIGHTpre ++ (v ++ ':' :: w))
        = .ok (.calStatus calWEIGHTtag (some v))) := by
  refine ⟨?_, ?_, ?_, ?_, ?_, ?_, ?_⟩
  · intro v hv
    have hs : pySplitAll ':' (calWEIGHTpre ++ v) = [calWEIGHTtag, v] := by
      rw [show calWEIGHTpre ++ v = calWEIGHTtag ++ ':' :: v by simp [calWEIGHTpre],
        pySplitAll_append (by decide), pySplitAll_sepFree hv]
    simp [handleMessageEvent, append_ne_of_diffAt (a := calWEIGHTpre) (b := calSTARTs) (by decide) v,
      append_ne_of_diffAt (a := calWEIGHTpre) (b := calCLEARs) (by decide) v,
      append_ne_of_diffAt (a := calWEIGHTpre) (b := calTAREDs) (by decide) v,
      isPrefixOf_append_self, hs, pyIndex, Except.map]
  · intro v hv
    have hs : pySplitAll ':' (calRAWpre ++ v) = [calRAWtag, v] := by
      rw [show calRAWpre ++ v = calRAWtag ++ ':' :: v by simp [calRAWpre],
        pySplitAll_append (by decide), pySplitAll_sepFree hv]
    simp [handleMessageEvent, append_ne_of_diffAt (a := calRAWpre) (b := calSTARTs) (by decide) v,
      append_ne_of_diffAt (a := calRAWpre) (b := calCLEARs) (by decide) v,
      append_ne_of_diffAt (a := calRAWpre) (b := calTAREDs) (by decide) v,
      isPrefixOf_append_false_of_diffAt (p := calWEIGHTpre) (b := calRAWpre) (by decide),
      isPrefixOf_append_self, hs, pyIndex, Except.map]
  · intro v hv
    have hs : pySplitAll ':' (calFACTORpre ++ v) = [calFACTORtag, v] := by
      rw [show calFACTORpre ++ v = calFACTORtag ++ ':' :: v by simp [calFACTORpre],
        pySplitAll_append (by decide), pySplitAll_sepFree hv]
    simp [handleMessageEvent, append_ne_of_diffAt (a := calFACTORpre) (b := calSTARTs) (by decide) v,
      append_ne_of_diffAt (a := calFACTORpre) (b := calCLEARs) (by decide) v,
      append_ne_of_diffAt (a := calFACTORpre) (b := calTAREDs) (by decide) v,
      isPrefixOf_append_false_of_diffAt (p := calWEIGHTpre) (b := calFACTORpre) (by decide),
      isPrefixOf_append_false_of_diffAt (p := calRAWpre) (b := calFACTORpre) (by decide),
      isPrefixOf_append_self, hs, pyIndex, Except.map]
  · intro v hv
    have hs : pySplitAll ':' (calTESTpre ++ v) = [calTESTtag, v] := by
      rw [show calTESTpre ++ v = calTESTtag ++ ':' :: v by simp [calTESTpre],
        pySplitAll_append (by decide), pySplitAll_sepFree hv]
    simp [handleMessageEvent, append_ne_of_diffAt (a := calTESTpre) (b := calSTARTs) (by decide) v,
      append_ne_of_diffAt (a := calTESTpre) (b := calCLEARs) (by decide) v,
      append_ne_of_diffAt (a := calTESTpre) (b := calTAREDs) (by decide) v,
      isPrefixOf_append_false_of_diffAt (p := calWEIGHTpre) (b := calTESTpre) (by decide),
      isPrefixOf_append_false_of_diffAt (p := calRAWpre) (b := calTESTpre) (by decide),
      isPrefixOf_append_false_of_diffAt (p := calFACTORpre) (b := calTESTpre) (by decide),
      isPrefixOf_append_self, hs, pyIndex, Except.map]
  · intro v
    have hs : pySplitMax1 ':' (calERRORpre ++ v) = [calERRORtag, v] := by
      rw [show calERRORpre ++ v = calERRORtag ++ ':' :: v by simp [calERRORpre],
        pySplitMax1_append (by decide)]
    simp [handleMessageEvent, append_ne_of_diffAt (a := calERRORpre) (b := calSTARTs) (by decide) v,
      append_ne_of_diffAt (a := calERRORpre) (b := calCLEARs) (by decide) v,
      append_ne_of_diffAt (a := calERRORpre) (b := calTAREDs) (by decide) v,
      isPrefixOf_append_false_of_diffAt (p := calWEIGHTpre) (b := calERRORpre) (by decide),
      isPrefixOf_append_false_of_diffAt (p := calRAWpre) (b := calERRORpre) (by decide),
      isPrefixOf_append_false_of_diffAt (p := calFACTORpre) (b := calERRORpre) (by decide),
      isPrefixOf_append_false_of_diffAt (p := calTESTpre) (b := calERRORpre) (by decide),
      isPrefixOf_append_self, hs, pyIndex, Except.map]
  · intro v hv
    have hs : pySplitAll ':' (scaleFACTORpre ++ v) = [scaleFACTORtag, v] := by
      rw [show scaleFACTORpre ++ v = scaleFACTORtag ++ ':' :: v by simp [scaleFACTORpre],
        pySplitAll_append (by decide), pySplitAll_sepFree hv]
    simp [scaleFactorPayload, hs, pyIndex]
  · intro v w hv
    have hs : pySplitAll ':' (calWEIGHTpre ++ (v ++ ':' :: w))
        = calWEIGHTtag :: v :: pySplitAll ':' w := by
      rw [show calWEIGHTpre ++ (v ++ ':' :: w) = calWEIGHTtag ++ ':' :: (v ++ ':' :: w)
        by simp [calWEIGHTpre], pySplitAll_append (by decide), pySplitAll_append hv]
    simp [handleMessageEvent,
      append_ne_of_diffAt (a := calWEIGHTpre) (b := calSTARTs) (by decide) (v ++ ':' :: w),
      append_ne_of_diffAt (a := calWEIGHTpre) (b := calCLEARs) (by decide) (v ++ ':' :: w),
      append_ne_of_diffAt (a := calWEIGHTpre) (b := calTAREDs) (by decide) (v ++ ':' :: w),
      isPrefixOf_append_self, hs, pyIndex, Except.map]

/-- Witness for C2 amended at concrete payloads. -/
theorem decoder_payload_split_witness :
    handleMessageEvent (calWEIGHTpre ++ ['9']) = .ok (.calStatus calWEIGHTtag (some ['9'])) ∧
    handleMessageEvent (calERRORpre ++ ['a', ':', 'b'])
      = .ok (.calStatus calERRORtag (some ['a', ':', 'b'])) ∧
    scaleFactorPayload (scaleFACTORpre ++ ['7']) = .ok ['7'] ∧
    handleMessageEvent (calWEIGHTpre ++ (['3'] ++ ':' :: ['4']))
      = .ok (.calStatus calWEIGHTtag (some ['3'])) := by
  refine ⟨?_, ?_, ?_, ?_⟩
  · exact decoder_payload_split.1 ['9'] (by decide)
  · exact decoder_payload_split.2.2.2.2.1 ['a', ':', 'b']
  · exact decoder_payload_split.2.2.2.2.2.1 ['7'] (by decide)
  · exact decoder_payload_split.2.2.2.2.2.2 ['3'] ['4'] (by decide)

/-! Claim C6. -/

/-- C6: while a recording session is active, every incoming line that
Python `float()` accepts is recorded as exactly one row whose weight field
is the parsed value (the line is also displayed); nothing else in the
state changes — in particular the `SCALE_FACTOR:` branch cannot fire,
since a float-parseable line cannot start with `SCALE_FACTOR:`. -/
theorem float_line_recorded (g : Gui) (now : ℚ) (L : List Char) (v : PyFloat)
    (hv : pyFloatOfChars L = some v) (hr : g.recording = true) :
    processLine g now L =
      .ok { g with displayed := g.displayed ++ [L],
                   rows := g.rows ++ [(now - g.startTime, v)] } := by
  have hL : ¬ L = [] := by
    intro h
    rw [h, pyFloatOfChars_nil] at hv
    cases hv
  have hpre := not_scale_of_parses hv
  unfold processLine
  rw [if_neg hL]
  simp only [hpre, Bool.false_and, Bool.false_eq_true, if_false]
  simp [hr, record_measurement, hv]

/-- Witness for C6: the bare measurement line `"7"` while recording. -/
theorem float_line_recorded_witness :
    processLine
      { recording := true, sinkOpen := true, waitingScale := false, scaleFactor := none,
        displayed := [], rows := [], startTime := 0, duration := 60 } 1 ['7']
      = .ok { recording := true, sinkOpen := true, waitingScale := false,
              scaleFactor := none, displayed := [['7']],
              rows := [((1 : ℚ), .finite (mkRat 7 1))], startTime := 0, duration := 60 } := by
  have h := float_line_recorded
    { recording := true, sinkOpen := true, waitingScale := false, scaleFactor := none,
      displayed := [], rows := [], startTime := 0, duration := 60 } 1 ['7']
    (.finite (mkRat 7 1)) (by decide) rfl
  simpa using h

/-! Claim C3. -/

/-- The state and UI updates of `handle_message` never write to the device. -/
lemma handleMessageState_sent (w : CalWin) (m : List Char) :
    (handleMessageState w m).sent = w.sent := by
  unfold handleMessageState
  repeat' split
  all_goals rfl

/-- C3 counterexample: from a real run that reaches `need_weight`
(`CAL_TARED` received), submitting the entry text `"inf"` — which
`float()` accepts as a non-finite value, and which fails the `w <= 0`
check since `inf > 0` — sends `<weight:inf>` to the device, contradicting
the claim that every non-finite input is rejected locally with no device
traffic. -/
theorem weight_inf_sent_counterexample :
    (calRun calWinInit [.deviceMsg calTAREDs, .nextClick ['i', 'n', 'f']]).sent
      = [calibrateCmd, weightCmd ['i', 'n', 'f']] ∧
    pyFloatOfChars ['i', 'n', 'f'] = some .posInf ∧
    pyFloatLeZero .posInf = false := by
  decide

/-- C3 amended: a `<weight:...>` command is only ever sent by a Next click
in state `need_weight` whose stripped entry text parses as a Python float
comparing `> 0` under float ordering — a validation that accepts the
non-finite inputs `inf` and `nan`; and any submission that is empty,
non-numeric, or non-positive leaves the window (state and device traffic)
completely unchanged. -/
theorem weight_submission_guarded :
    (∀ (w : CalWin) (e : CalEvent),
      (calStep w e).sent = w.sent ∨
      ∃ m, (calStep w e).sent = w.sent ++ [m] ∧
        (isWeightCmd m = true →
          w.state = stNeedWeight ∧
          ∃ t v, e = .nextClick t ∧ pyFloatOfChars (pyStrip t) = some v ∧
            pyFloatLeZero v = false ∧ m = weightCmd (pyStrip t))) ∧
    (∀ (w : CalWin) (t : List Char),
      (pyStrip t = [] ∨ pyFloatOfChars (pyStrip t) = none ∨
        (∃ v, pyFloatOfChars (pyStrip t) = some v ∧ pyFloatLeZero v = true)) →
      calStep w (.nextClick t) = w) := by
  constructor
  · intro w e
    cases e with
    | deviceMsg m =>
      left
      exact handleMessageState_sent w m
    | nextClick t =>
      simp only [calStep]
      by_cases hg : (w.nextEnabled && !w.nextIsClose) = true
      · rw [if_pos hg]
        unfold on_next
        by_cases hst : w.state = stNeedWeight
        · rw [if_pos hst]
          by_cases hwt : pyStrip t = []
          · rw [if_pos hwt]
            left
            rfl
          · rw [if_neg hwt]
            rcases hpar : pyFloatOfChars (pyStrip t) with _ | v
            · left
              rfl
            · by_cases hle : pyFloatLeZero v = true
              · left
                simp [hle]
              · right
                refine ⟨weightCmd (pyStrip t), ?_, ?_⟩
                · simp [hle]
                · intro _
                  exact ⟨hst, t, v, rfl, hpar, by simpa using hle, rfl⟩
        · rw [if_neg hst]
          left
          rfl
      · rw [if_neg hg]
        left
        rfl
    | cancelClick =>
      right
      refine ⟨cancelCmd, rfl, ?_⟩
      intro hw
      exact absurd hw (by decide)
  · intro w t hbad
    simp only [calStep]
    by_cases hg : (w.nextEnabled && !w.nextIsClose) = true
    · rw [if_pos hg]
      unfold on_next
      by_cases hst : w.state = stNeedWeight
      · rw [if_pos hst]
        by_cases hwt : pyStrip t = []
        · rw [if_pos hwt]
        · rw [if_neg hwt]
          rcases hbad with hbad | hbad | ⟨v, hv, hle⟩
          · exact absurd hbad hwt
          · rw [hbad]
          · rw [hv]
            simp [hle]
      · rw [if_neg hst]
    · rw [if_neg hg]

/-- Witness for C3 amended: a Cancel click (the only non-weight send) and a
rejected non-numeric submission, from a window sitting in `need_weight`. -/
theorem weight_submission_guarded_witness :
    ((calStep calWinAtNeedWeight CalEvent.cancelClick).sent = calWinAtNeedWeight.sent ∨
      ∃ m, (calStep calWinAtNeedWeight CalEvent.cancelClick).sent
          = calWinAtNeedWeight.sent ++ [m] ∧
        (isWeightCmd m = true →
          calWinAtNeedWeight.state = stNeedWeight ∧
          ∃ t v, CalEvent.cancelClick = .nextClick t ∧
            pyFloatOfChars (pyStrip t) = some v ∧
            pyFloatLeZero v = false ∧ m = weightCmd (pyStrip t))) ∧
    calStep calWinAtNeedWeight (.nextClick ['a']) = calWinAtNeedWeight := by
  constructor
  · exact weight_submission_guarded.1 calWinAtNeedWeight CalEvent.cancelClick
  · exact weight_submission_guarded.2 calWinAtNeedWeight ['a'] (Or.inr (Or.inl (by decide)))

/-! Claim C8. -/

/-- Once recording is off, no event other than a fresh `start_recording`
writes rows or re-enables recording, and the sink stays closed. -/
lemma recRun_stopped (es : List RecEvent) :
    ∀ g : Gui, g.recording = false → g.sinkOpen = false →
      (∀ e ∈ es, ∀ t d, e ≠ RecEvent.startRec t d) →
      (recRun g es).rows = g.rows ∧ (recRun g es).recording = false ∧
      (recRun g es).sinkOpen = false := by
  induction es with
  | nil => exact fun g hg hs _ => ⟨rfl, hg, hs⟩
  | cons e es ih =>
    intro g hg hs hns
    have hns2 : ∀ e2 ∈ es, ∀ t d, e2 ≠ RecEvent.startRec t d :=
      fun e2 he2 => hns e2 (List.mem_cons_of_mem e he2)
    cases e with
    | tick now =>
      have hstep : recStep g (.tick now) = g := by simp [recStep, hg]
      rw [recRun, List.foldl_cons, hstep]
      exact ih g hg hs hns2
    | measure now line =>
      have hstep : recStep g (.measure now line) = g := by simp [recStep, hg]
      rw [recRun, List.foldl_cons, hstep]
      exact ih g hg hs hns2
    | stopClick =>
      have h := ih (stop_recording g) rfl rfl hns2
      rw [recRun, List.foldl_cons]
      exact ⟨h.1, h.2.1, h.2.2⟩
    | startRec now dur =>
      exact absurd rfl (hns (.startRec now dur) (List.mem_cons_self _ _) now dur)

/-- C8: on the first `check_recording_duration` tick whose computed
`remaining = duration - elapsed` has reached or passed zero, the session
stops itself (`recording` cleared) and closes the CSV sink, and however
many further measurement lines, ticks or stop clicks follow (anything but
a fresh `start_recording`), no further rows are ever written. -/
theorem recording_stops_after_duration (g : Gui) (now : ℚ) (es : List RecEvent)
    (hr : g.recording = true) (hd : g.duration - (now - g.startTime) ≤ 0)
    (hns : ∀ e ∈ es, ∀ t d, e ≠ RecEvent.startRec t d) :
    (recStep g (.tick now)).recording = false ∧
    (recStep g (.tick now)).sinkOpen = false ∧
    (recRun (recStep g (.tick now)) es).rows = (recStep g (.tick now)).rows := by
  have hstep : recStep g (.tick now) = stop_recording g := by
    simp only [recStep, hr, if_true]
    rw [if_neg (not_lt.2 hd)]
  rw [hstep]
  exact ⟨rfl, rfl, (recRun_stopped es (stop_recording g) rfl rfl hns).1⟩

/-- Witness for C8: a 5-second session ticking at `now = 5`, followed by a
late measurement that is not recorded. -/
theorem recording_stops_after_duration_witness :
    (recStep
      { recording := true, sinkOpen := true, waitingScale := false, scaleFactor := none,
        displayed := [], rows := [], startTime := 0, duration := 5 }
      (.tick 5)).recording = false ∧
    (recStep
      { recording := true, sinkOpen := true, waitingScale := false, scaleFactor := none,
        displayed := [], rows := [], startTime := 0, duration := 5 }
      (.tick 5)).sinkOpen = false ∧
    (recRun (recStep
      { recording := true, sinkOpen := true, waitingScale := false, scaleFactor := none,
        displayed := [], rows := [], startTime := 0, duration := 5 }
      (.tick 5)) [.measure 6 ['1']]).rows
      = (recStep
      { recording := true, sinkOpen := true, waitingScale := false, scaleFactor := none,
        displayed := [], rows := [], startTime := 0, duration := 5 }
      (.tick 5)).rows := by
  refine recording_stops_after_duration _ 5 [.measure 6 ['1']] rfl (by simp) ?_
  intro e he t d
  rw [List.mem_singleton] at he
  subst he
  simp

/-! Claim C4. -/

/-- On a wire where the sentinel `'r'` never appears and the transport
never raises, the polling loop exits with a timeout at the first iteration
whose elapsed time has reached the bound (given enough fuel to get there). -/
lemma handshakeLoop_times_out (env : ConnectEnv) (timeout : Nat)
    (hnr : ∀ k, env.steps k ≠ .byte 'r') (hnx : ∀ k, env.steps k ≠ .raiseExn) :
    ∀ fuel k, (∃ j, j < fuel ∧ timeout ≤ env.clock (k + j)) →
      ∃ m, handshakeLoop env timeout fuel k = some (.timedOut m) ∧
        timeout ≤ env.clock m := by
  intro fuel
  induction fuel with
  | zero =>
    rintro k ⟨j, hj, _⟩
    omega
  | succ f ih =>
    rintro k ⟨j, hj, hcl⟩
    by_cases hk : env.clock k < timeout
    · have hj0 : j ≠ 0 := by
        intro h
        rw [h, Nat.add_zero] at hcl
        omega
      have hnext : ∃ j2, j2 < f ∧ timeout ≤ env.clock (k + 1 + j2) := by
        refine ⟨j - 1, by omega, ?_⟩
        have : k + 1 + (j - 1) = k + j := by omega
        rw [this]
        exact hcl
      cases hstep : env.steps k with
      | raiseExn => exact absurd hstep (hnx k)
      | quiet =>
        have h2 := ih (k + 1) hnext
        rw [handshakeLoop, if_pos hk, hstep]
        exact h2
      | byte c =>
        have hc : ¬ c = 'r' := by
          intro h
          rw [h] at hstep
          exact hnr k hstep
        have h2 := ih (k + 1) hnext
        rw [handshakeLoop, if_pos hk, hstep]
        simpa [hc] using h2
    · refine ⟨k, ?_, by omega⟩
      rw [handshakeLoop, if_neg hk]

/-- C4: when the open succeeds but the device never sends the sentinel
`'r'` (and the transport raises nothing), `connect` fails with
`ConnectionError` only once the polling loop has observed that the
configured timeout elapsed — the loop condition
`time.time() - start_time < timeout` failing is the only exit — and it
first closes the freshly opened handle and clears `connected`, so the
controller afterwards reports not connected and holds no open handle. The
`timeout` parameter of `connect` defaults to 5 seconds. -/
theorem connect_timeout_raises (c : Controller) (env : ConnectEnv)
    (fuel timeout : Nat) (p : List Char)
    (hc : c.connected = false) (hp : p ≠ [])
    (hopen : env.openOk = true)
    (hnr : ∀ k, env.steps k ≠ .byte 'r') (hnx : ∀ k, env.steps k ≠ .raiseExn)
    (hfuel : ∃ j, j < fuel ∧ timeout ≤ env.clock j) :
    ∃ m, handshakeLoop env timeout fuel 0 = some (.timedOut m) ∧
      timeout ≤ env.clock m ∧
      ∃ c2, connectRun c env fuel (some p) none timeout
          = some (c2, .raised .connectionError) ∧
        is_connected c2 = false ∧ serOpen c2 = false ∧ c2.ser ≠ none ∧
        connect_default_timeout = 5 := by
  have hfuel2 : ∃ j, j < fuel ∧ timeout ≤ env.clock (0 + j) := by
    simpa using hfuel
  obtain ⟨m, hm, hcl⟩ := handshakeLoop_times_out env timeout hnr hnx fuel 0 hfuel2
  refine ⟨m, hm, hcl, ?_⟩
  have hpt : pyTruthyStr (some p) = true := by
    simp [pyTruthyStr, hp]
  refine ⟨{ c with
            port := some p,
            ser := some { isOpen := false, written := [] },
            connected := false }, ?_, rfl, rfl, by simp, rfl⟩
  simp [connectRun, hc, hpt, hopen, hm, pyTruthyNat]

/-- Witness for C4: a quiet wire, unit-per-iteration clock, timeout 5,
fuel 6. -/
theorem connect_timeout_raises_witness :
    ∃ m, handshakeLoop { openOk := true, clock := fun k => k, steps := fun _ => .quiet }
        5 6 0 = some (.timedOut m) ∧
      5 ≤ ({ openOk := true, clock := fun k => k,
              steps := fun _ => .quiet } : ConnectEnv).clock m ∧
      ∃ c2, connectRun initController
          { openOk := true, clock := fun k => k, steps := fun _ => .quiet } 6
          (some ['C', 'O', 'M', '3']) none 5
          = some (c2, .raised .connectionError) ∧
        is_connected c2 = false ∧ serOpen c2 = false ∧ c2.ser ≠ none ∧
        connect_default_timeout = 5 :=
  connect_timeout_raises initController
    { openOk := true, clock := fun k => k, steps := fun _ => .quiet } 6 5
    ['C', 'O', 'M', '3'] rfl (by decide) rfl
    (fun k h => by cases h) (fun k h => by cases h) ⟨5, by decide⟩

/-! Claim C5. -/

/-- A handshake loop that reports a `SerialException` saw one on the wire. -/
lemma handshakeLoop_exn_step (env : ConnectEnv) (timeout : Nat) :
    ∀ fuel k m, handshakeLoop env timeout fuel k = some (.exn m) →
      env.steps m = .raiseExn := by
  intro fuel
  induction fuel with
  | zero =>
    intro k m h
    rw [handshakeLoop] at h
    cases h
  | succ f ih =>
    intro k m h
    rw [handshakeLoop] at h
    by_cases hk : env.clock k < timeout
    · rw [if_pos hk] at h
      cases hstep : env.steps k with
      | raiseExn =>
        rw [hstep] at h
        injection h with h2
        injection h2 with h3
        rw [← h3]
        exact hstep
      | quiet =>
        rw [hstep] at h
        exact ih (k + 1) m h
      | byte c =>
        rw [hstep] at h
        simp only [] at h
        by_cases hc : c = 'r'
        · simp only [hc, if_true] at h
          injection h with h2
          cases h2
        · simp only [hc, if_false] at h
          exact ih (k + 1) m h
    · rw [if_neg hk] at h
      injection h with h2
      cases h2

/-- C5 counterexample: when the open succeeds and the very first
`in_waiting`/`read` poll raises `serial.SerialException`, the `except`
block clears `connected` and re-raises as `ConnectionError` — but never
closes the handle that `serial.Serial(...)` just opened: the attempt fails
yet an open serial handle survives. -/
theorem connect_exn_leaves_open_counterexample :
    connectRun initController
        { openOk := true, clock := fun _ => 0, steps := fun _ => .raiseExn } 1
        (some ['C', 'O', 'M', '3']) none 5
      = some ({ initController with
                port := some ['C', 'O', 'M', '3'],
                ser := some { isOpen := true, written := [] },
                connected := false }, .raised .connectionError) ∧
    serOpen { initController with
              port := some ['C', 'O', 'M', '3'],
              ser := some { isOpen := true, written := [] },
              connected := false } = true := by
  constructor
  · rfl
  · rfl

/-- C5 amended: provided the transport raises no exception during the
handshake polling itself, every failing `connect` (no port, open failure,
or handshake timeout) leaves the controller fully disconnected — the
`connected` flag false and no open serial handle — assuming it held no open
handle before the call. A `SerialException` during polling, however,
breaks this: it leaves the fresh handle open (see the counterexample). -/
theorem connect_failure_leaves_closed (c : Controller) (env : ConnectEnv)
    (fuel : Nat) (port : Option (List Char)) (baudrate : Option Nat) (timeout : Nat)
    (hser : serOpen c = false) (hnx : ∀ k, env.steps k ≠ .raiseExn) :
    ∀ c2 e, connectRun c env fuel port baudrate timeout = some (c2, .raised e) →
      c2.connected = false ∧ serOpen c2 = false := by
  intro c2 e h
  rw [connectRun] at h
  by_cases hcc : c.connected = true
  · rw [if_pos hcc] at h
    injection h with h2
    injection h2 with _ h3
    cases h3
  · rw [if_neg hcc] at h
    set c1 := if pyTruthyStr port then { c with port := port } else c with hc1
    set cb := if pyTruthyNat baudrate then { c1 with baud := baudrate.getD 0 } else c1
      with hcb
    have hser1 : serOpen cb = false := by
      have h1 : c1.ser = c.ser := by
        rw [hc1]
        split <;> rfl
      have h2 : cb.ser = c1.ser := by
        rw [hcb]
        split <;> rfl
      rw [serOpen] at hser ⊢
      rw [h2, h1]
      exact hser
    by_cases hport : pyTruthyStr cb.port = true
    · rw [if_neg (by simp [hport])] at h
      by_cases hopen : env.openOk = true
      · rw [if_neg (by simp [hopen])] at h
        rcases hloop : handshakeLoop env timeout fuel 0 with _ | exit
        · rw [hloop] at h
          cases h
        · rw [hloop] at h
          cases exit with
          | ready k =>
            injection h with h2
            injection h2 with _ h3
            cases h3
          | timedOut k =>
            injection h with h2
            injection h2 with h3 _
            rw [← h3]
            exact ⟨rfl, rfl⟩
          | exn k =>
            exact absurd (handshakeLoop_exn_step env timeout fuel 0 k hloop)
              (hnx k)
      · rw [if_pos (by simp [hopen])] at h
        injection h with h2
        injection h2 with h3 _
        rw [← h3]
        exact ⟨rfl, hser1⟩
    · rw [if_pos (by simp [hport])] at h
      injection h with h2
      injection h2 with h3 _
      rw [← h3]
      refine ⟨?_, hser1⟩
      simp only [Bool.not_eq_true] at hcc
      have h4 : c1.connected = c.connected := by
        rw [hc1]
        split <;> rfl
      have h5 : cb.connected = c1.connected := by
        rw [hcb]
        split <;> rfl
      rw [h5, h4]
      exact hcc

/-- Witness for C5 amended: the open itself failing on a fresh controller. -/
theorem connect_failure_leaves_closed_witness :
    ({ initController with
        port := some ['C', 'O', 'M', '3'],
        connected := false } : Controller).connected = false ∧
    serOpen { initController with
        port := some ['C', 'O', 'M', '3'],
        connected := false } = false :=
  connect_failure_leaves_closed initController
    { openOk := false, clock := fun _ => 0, steps := fun _ => .quiet } 1
    (some ['C', 'O', 'M', '3']) none 5 rfl (fun k h => by cases h)
    { initController with
      port := some ['C', 'O', 'M', '3'],
      connected := false }
    PyExn.connectionError (by decide)

end ExtruderJig
